import Mathlib

/-!
Shallow embedding of the esports CLI (Deno/TypeScript) snapshot cache and
match filter pipeline, together with theorems settling the specification
claims.  The embedded functions follow the richer program variant (the one
defining fetchIfNeeded, the snapshot envelope and all four filters); the
reduced variant in main.ts shares the functions the claims touch.

Modelling conventions:
- The filesystem visible to the program is an association list from file
  names to parsed JSON file contents (the program always writes
  JSON.stringify output and reads it back with JSON.parse, so the stored
  value determines the bytes).  Directory creation is invisible at this
  level.
- The network is a function from endpoint paths to a response: a 2xx body,
  a non-2xx status, or a transport failure (fetch throwing).  A thrown
  exception is modelled as Except.error propagating to the caller.
- Clock readings are Nat milliseconds.  Date.prototype.toISOString is
  modelled by an injective decimal string rendering of the millisecond
  value, and new Date(s).getTime() by its parse; a string that is not such
  a rendering parses to none, standing for NaN, and every NaN comparison
  is false exactly as in JS.  One fetch operation uses one clock reading.
- JS number arithmetic on times is modelled exactly over Int; the test
  elapsedMs / 60000 < cooldownMinutes is written in the equivalent
  cleared-denominator form elapsedMs < cooldownMinutes * 60000.
- String.prototype.toLowerCase is modelled per character (the program
  only ever lowercases ASCII names and queries).
-/

namespace EsportsCli

/-- Parsed JSON values, the contents of snapshot files and API bodies.
Json.null also stands for the undefined produced by destructuring a
missing object field. -/
inductive Json where
  | null
  | bool (b : Bool)
  | num (n : Int)
  | str (s : String)
  | arr (elems : List Json)
  | obj (fields : List (String × Json))

/-- Lookup of an object field, as in destructuring after JSON.parse. -/
def assocLookup : List (String × Json) → String → Option Json
  | [], _ => none
  | (k, v) :: rest, key => if k == key then some v else assocLookup rest key

/-- Reading a top level field of a parsed JSON document. -/
def getField (j : Json) (key : String) : Option Json :=
  match j with
  | .obj fields => assocLookup fields key
  | _ => none

/-- The local filesystem as seen by the program: file name to parsed
JSON content. -/
abbrev Store := List (String × Json)

/-- Models exists + Deno.readTextFile + JSON.parse on a file. -/
def storeRead : Store → String → Option Json
  | [], _ => none
  | (k, v) :: rest, file => if k == file then some v else storeRead rest file

/-- Models Deno.writeTextFile: create the file or overwrite it in place. -/
def storeWrite : Store → String → Json → Store
  | [], file, content => [(file, content)]
  | (k, v) :: rest, file, content =>
      if k == file then (k, content) :: rest
      else (k, v) :: storeWrite rest file content

/-- Little endian decimal digits of n, with explicit fuel so that the
recursion is structural. -/
def decDigitsAux : Nat → Nat → List Nat
  | 0, _ => []
  | fuel + 1, n => if n = 0 then [] else n % 10 :: decDigitsAux fuel (n / 10)

/-- The digit character for d. -/
def digitChar (d : Nat) : Char := Char.ofNat (d + 48)

/-- Models Date.prototype.toISOString: an injective string rendering of
the millisecond clock value (decimal digits, most significant first). -/
def isoTimestamp (n : Nat) : String :=
  if n = 0 then "0" else String.mk (((decDigitsAux n n).reverse).map digitChar)

/-- Numeric value of a digit character. -/
def digitVal (c : Char) : Nat := c.toNat - 48

/-- Big endian decimal parse of a character list. -/
def parseDecimal (l : List Char) : Nat :=
  l.foldl (fun acc c => 10 * acc + digitVal c) 0

/-- Models new Date(s).getTime() on the timestamp strings the program
writes; none stands for NaN. -/
def dateGetTime (s : String) : Option Int :=
  if s.data.isEmpty then none
  else if s.data.all Char.isDigit then some (Int.ofNat (parseDecimal s.data))
  else none

/-- Models new Date(x).getTime() on a parsed JSON field value: the
program only ever writes string timestamps; a missing field (undefined)
or any other shape is NaN. -/
def jsonDateGetTime : Json → Option Int
  | .str s => dateGetTime s
  | _ => none

/-- First slash replaced by an underscore: JS
endpoint.replace("/", "_") with a string pattern replaces only the
first occurrence. -/
def replaceFirstSlash : List Char → List Char
  | [] => []
  | c :: rest => if c == '/' then '_' :: rest else c :: replaceFirstSlash rest

/-- The snapshot file name snapshot_${endpoint.replace("/", "_")}.json. -/
def snapshotFileName (endpoint : String) : String :=
  "snapshot_" ++ String.mk (replaceFirstSlash endpoint.data) ++ ".json"

/-- The two field envelope object written to every snapshot file. -/
def envelopeJson (ts : String) (payload : Json) : Json :=
  Json.obj [("lastFetched", Json.str ts), ("data", payload)]

/-- The envelope written at clock reading now. -/
def snapshotJson (now : Nat) (payload : Json) : Json :=
  envelopeJson (isoTimestamp now) payload

/-- saveSnapshot: build { lastFetched: new Date().toISOString(), data },
ensure the directory exists, and write the file. -/
def saveSnapshot (st : Store) (now : Nat) (data : Json) (filename : String) : Store :=
  storeWrite st filename (snapshotJson now data)

/-- A remote response: 2xx body, non-2xx status, or fetch throwing. -/
inductive NetResult where
  | ok (body : Json)
  | httpError (status : Nat) (statusText : String)
  | transportError (msg : String)

/-- The remote data source, one response per endpoint path. -/
abbrev Net := String → NetResult

/-- The in-memory snapshot value { lastFetched, data } returned to the
session; lastFetched keeps the raw JSON field value. -/
structure Snapshot where
  lastFetched : Json
  data : Json

/-- Result of one data acquisition: the returned value (Except.error
models an uncaught thrown exception, ok none models returning null),
the filesystem afterwards, and the endpoints actually requested. -/
structure FetchOutcome where
  result : Except String (Option Snapshot)
  store : Store
  calls : List String

/-- fetchEsportsData: with useSnapshot and an existing file, return its
parsed envelope without any request; otherwise perform the request; on a
non-2xx status log and return null; on success save a snapshot and
return the fresh envelope. -/
def fetchEsportsData (net : Net) (st : Store) (now : Nat)
    (endpoint : String) (useSnapshot : Bool) : FetchOutcome :=
  let snapshotFile := snapshotFileName endpoint
  match useSnapshot, storeRead st snapshotFile with
  | true, some j =>
      { result := .ok (some { lastFetched := (getField j "lastFetched").getD .null,
                              data := (getField j "data").getD .null }),
        store := st, calls := [] }
  | _, _ =>
      match net endpoint with
      | .ok body =>
          { result := .ok (some { lastFetched := .str (isoTimestamp now), data := body }),
            store := saveSnapshot st now body snapshotFile,
            calls := [endpoint] }
      | .httpError _ _ => { result := .ok none, store := st, calls := [endpoint] }
      | .transportError msg => { result := .error msg, store := st, calls := [endpoint] }

/-- fetchIfNeeded: if a snapshot file exists and its age in minutes is
strictly below the cooldown, return it unchanged; otherwise delegate to
fetchEsportsData with useSnapshot false.  The age test
(now - lastFetched) / 60000 < cooldownMinutes is written with the
denominator cleared; a NaN age (unparseable timestamp) fails the test
exactly as in JS and forces the refetch. -/
def fetchIfNeeded (net : Net) (st : Store) (now : Nat)
    (endpoint : String) (cooldownMinutes : Nat) : FetchOutcome :=
  let snapshotFile := snapshotFileName endpoint
  match storeRead st snapshotFile with
  | some j =>
      match jsonDateGetTime ((getField j "lastFetched").getD .null) with
      | some last =>
          if (now : Int) - last < (cooldownMinutes : Int) * 60000 then
            { result := .ok (some { lastFetched := (getField j "lastFetched").getD .null,
                                    data := (getField j "data").getD .null }),
              store := st, calls := [] }
          else fetchEsportsData net st now endpoint false
      | none => fetchEsportsData net st now endpoint false
  | none => fetchEsportsData net st now endpoint false

/-- The endpoint the session browses. -/
def upcomingEndpoint : String := "/matches/upcoming"

/-- The data acquisition at the start of every mainMenu cycle:
fetchEsportsData with useSnapshot set to true. -/
def mainMenuAcquire (net : Net) (st : Store) (now : Nat) : FetchOutcome :=
  fetchEsportsData net st now upcomingEndpoint true

/-- The Fetch New Data menu action: fetchIfNeeded with the hardcoded
cooldown of 10 minutes. -/
def fetchNewDataAction (net : Net) (st : Store) (now : Nat) : FetchOutcome :=
  fetchIfNeeded net st now upcomingEndpoint 10

/-- The videogame object nested in a match. -/
structure Videogame where
  name : String
  deriving DecidableEq

/-- The league object nested in a match. -/
structure League where
  name : String
  deriving DecidableEq

/-- The tournament object nested in a match. -/
structure Tournament where
  name : String
  deriving DecidableEq

/-- An opponent team; acronym and location are optional fields. -/
structure Opponent where
  id : Int
  name : String
  acronym : Option String
  location : Option String
  deriving DecidableEq

/-- One entry of the opponents array, wrapping the opponent object. -/
structure OpponentEntry where
  opponent : Opponent
  deriving DecidableEq

/-- The Match interface of the source. -/
structure Match where
  id : Int
  name : String
  scheduled_at : String
  status : String
  videogame : Videogame
  league : League
  tournament : Tournament
  opponents : List OpponentEntry
  deriving DecidableEq

/-- Models String.prototype.toLowerCase on the ASCII names and queries
the program handles. -/
def jsToLower (s : String) : String := String.mk (s.data.map Char.toLower)

/-- Is pat a prefix of l, comparing characters. -/
def charsHavePrefix : List Char → List Char → Bool
  | [], _ => true
  | _ :: _, [] => false
  | a :: as, b :: bs => a == b && charsHavePrefix as bs

/-- Does l contain pat as a contiguous run. -/
def charsContain (pat : List Char) : List Char → Bool
  | [] => charsHavePrefix pat []
  | c :: rest => charsHavePrefix pat (c :: rest) || charsContain pat rest

/-- Models String.prototype.includes: substring containment. -/
def jsIncludes (s pat : String) : Bool := charsContain pat.data s.data

/-- filterByGame: case insensitive exact equality on the videogame name. -/
def filterByGame (ms : List Match) (game : String) : List Match :=
  ms.filter fun m => jsToLower m.videogame.name == jsToLower game

/-- filterByLeague: case insensitive substring test on the league name. -/
def filterByLeague (ms : List Match) (league : String) : List Match :=
  ms.filter fun m => jsIncludes (jsToLower m.league.name) (jsToLower league)

/-- filterLiveMatches: exact, case sensitive equality with "live". -/
def filterLiveMatches (ms : List Match) : List Match :=
  ms.filter fun m => m.status == "live"

/-- searchMatches: case insensitive substring test on the match name. -/
def searchMatches (ms : List Match) (query : String) : List Match :=
  ms.filter fun m => jsIncludes (jsToLower m.name) (jsToLower query)

/-- The spec wording for the filterByGame predicate: the game name of
the match equals the query ignoring case (exact match, not substring). -/
def specGameExactMatch (m : Match) (game : String) : Prop :=
  jsToLower m.videogame.name = jsToLower game

instance (m : Match) (game : String) : Decidable (specGameExactMatch m game) :=
  inferInstanceAs (Decidable (jsToLower m.videogame.name = jsToLower game))

/-! Helper lemmas about the timestamp encoding. -/

theorem digitVal_digitChar (d : Nat) (h : d < 10) : digitVal (digitChar d) = d := by
  interval_cases d <;> decide

theorem isDigit_digitChar (d : Nat) (h : d < 10) : (digitChar d).isDigit = true := by
  interval_cases d <;> decide

/-- Value of a little endian digit list. -/
def digitsValue : List Nat → Nat
  | [] => 0
  | d :: rest => d + 10 * digitsValue rest

theorem digitsValue_decDigitsAux :
    ∀ fuel n : Nat, n ≤ fuel → digitsValue (decDigitsAux fuel n) = n := by
  intro fuel
  induction fuel with
  | zero =>
      intro n h
      interval_cases n
      simp [decDigitsAux, digitsValue]
  | succ fuel ih =>
      intro n h
      by_cases h0 : n = 0
      · subst h0; simp [decDigitsAux, digitsValue]
      · have hlt : n / 10 < n := Nat.div_lt_self (Nat.pos_of_ne_zero h0) (by norm_num)
        have hdiv : n / 10 ≤ fuel := by omega
        simp only [decDigitsAux, h0, if_false, digitsValue, ih _ hdiv]
        omega

theorem decDigitsAux_digits_lt :
    ∀ fuel n : Nat, ∀ d ∈ decDigitsAux fuel n, d < 10 := by
  intro fuel
  induction fuel with
  | zero => intro n d hd; simp [decDigitsAux] at hd
  | succ fuel ih =>
      intro n d hd
      by_cases h0 : n = 0
      · subst h0; simp [decDigitsAux] at hd
      · simp only [decDigitsAux, h0, if_false, List.mem_cons] at hd
        rcases hd with hd | hd
        · subst hd; exact Nat.mod_lt _ (by norm_num)
        · exact ih _ _ hd

theorem foldl_digits (l : List Nat) :
    ∀ acc : Nat, (∀ d ∈ l, d < 10) →
      (l.map digitChar).foldl (fun a c => 10 * a + digitVal c) acc =
        l.foldl (fun a d => 10 * a + d) acc := by
  induction l with
  | nil => intro acc _; rfl
  | cons d rest ih =>
      intro acc h
      have hd : d < 10 := h d (List.mem_cons_self d rest)
      simp only [List.map_cons, List.foldl_cons, digitVal_digitChar d hd]
      exact ih _ fun x hx => h x (List.mem_cons_of_mem d hx)

theorem foldl_reverse_digitsValue (l : List Nat) :
    ∀ acc : Nat, (l.reverse).foldl (fun a d => 10 * a + d) acc =
      acc * 10 ^ l.length + digitsValue l := by
  induction l with
  | nil => intro acc; simp [digitsValue]
  | cons d rest ih =>
      intro acc
      simp only [List.reverse_cons, List.foldl_append, List.foldl_cons, List.foldl_nil,
        ih acc, digitsValue, List.length_cons]
      ring

theorem dateGetTime_isoTimestamp (n : Nat) :
    dateGetTime (isoTimestamp n) = some (Int.ofNat n) := by
  by_cases h0 : n = 0
  · subst h0; decide
  · obtain ⟨m, rfl⟩ : ∃ m, n = m + 1 := ⟨n - 1, by omega⟩
    have hcons : decDigitsAux (m + 1) (m + 1) =
        (m + 1) % 10 :: decDigitsAux m ((m + 1) / 10) := by
      simp [decDigitsAux]
    have hlt : ∀ d ∈ decDigitsAux (m + 1) (m + 1), d < 10 :=
      decDigitsAux_digits_lt (m + 1) (m + 1)
    have hdata : (isoTimestamp (m + 1)).data =
        ((decDigitsAux (m + 1) (m + 1)).reverse).map digitChar := by
      simp [isoTimestamp]
    have hne : ((decDigitsAux (m + 1) (m + 1)).reverse).map digitChar ≠ [] := by
      simp [hcons]
    have hall : (((decDigitsAux (m + 1) (m + 1)).reverse).map digitChar).all Char.isDigit = true := by
      rw [List.all_eq_true]
      intro c hc
      rw [List.mem_map] at hc
      obtain ⟨d, hd, rfl⟩ := hc
      rw [List.mem_reverse] at hd
      exact isDigit_digitChar d (hlt d hd)
    have hrevlt : ∀ d ∈ (decDigitsAux (m + 1) (m + 1)).reverse, d < 10 := by
      intro d hd
      rw [List.mem_reverse] at hd
      exact hlt d hd
    have hval : parseDecimal (((decDigitsAux (m + 1) (m + 1)).reverse).map digitChar) = m + 1 := by
      unfold parseDecimal
      rw [foldl_digits _ 0 hrevlt, foldl_reverse_digitsValue]
      simp [digitsValue_decDigitsAux (m + 1) (m + 1) le_rfl]
    rw [dateGetTime, hdata]
    simp only [List.isEmpty_iff, hne, if_false, hall, if_true, hval]

theorem jsonDateGetTime_isoTimestamp (n : Nat) :
    jsonDateGetTime (Json.str (isoTimestamp n)) = some (Int.ofNat n) := by
  simp [jsonDateGetTime, dateGetTime_isoTimestamp]

/-! Helper lemmas about the store and the envelope. -/

theorem getField_envelope_lastFetched (ts : String) (payload : Json) :
    getField (envelopeJson ts payload) "lastFetched" = some (Json.str ts) := rfl

theorem getField_envelope_data (ts : String) (payload : Json) :
    getField (envelopeJson ts payload) "data" = some payload := rfl

theorem storeRead_storeWrite_self (st : Store) (f : String) (v : Json) :
    storeRead (storeWrite st f v) f = some v := by
  induction st with
  | nil => simp [storeWrite, storeRead]
  | cons kv rest ih =>
      obtain ⟨k, w⟩ := kv
      by_cases h : k == f
      · simp [storeWrite, storeRead, h]
      · simp only [storeWrite, h, if_false, Bool.false_eq_true]
        simp only [storeRead, h, if_false, Bool.false_eq_true]
        exact ih

theorem storeRead_storeWrite_ne (st : Store) (f g : String) (v : Json)
    (h : g ≠ f) : storeRead (storeWrite st f v) g = storeRead st g := by
  induction st with
  | nil =>
      have : (f == g) = false := by
        simp only [beq_eq_false_iff_ne, ne_eq]
        exact fun hf => h hf.symm
      simp [storeWrite, storeRead, this]
  | cons kv rest ih =>
      obtain ⟨k, w⟩ := kv
      by_cases hk : k == f
      · have hkf : k = f := by simpa using hk
        subst hkf
        have : (k == g) = false := by
          simp only [beq_eq_false_iff_ne, ne_eq]
          exact fun hf => h hf.symm
        simp [storeWrite, storeRead, this]
      · simp only [storeWrite, hk, if_false, Bool.false_eq_true]
        by_cases hkg : k == g
        · simp [storeRead, hkg]
        · simp only [storeRead, hkg, if_false, Bool.false_eq_true]
          exact ih

/-! Demonstration values used by concrete instances. -/

/-- A match whose game is Counter-Strike. -/
def csMatch : Match :=
  { id := 1, name := "CS Match A", scheduled_at := "t1", status := "not_started",
    videogame := { name := "Counter-Strike" }, league := { name := "ESL" },
    tournament := { name := "Major" }, opponents := [] }

/-- A match whose game is Valorant. -/
def valorantMatch : Match :=
  { id := 2, name := "Valorant Match B", scheduled_at := "t2", status := "live",
    videogame := { name := "Valorant" }, league := { name := "VCT" },
    tournament := { name := "Masters" }, opponents := [] }

/-- A match whose game is counter-strike in lower case. -/
def csLowerMatch : Match :=
  { id := 3, name := "CS Match C", scheduled_at := "t3", status := "finished",
    videogame := { name := "counter-strike" }, league := { name := "BLAST" },
    tournament := { name := "Fall" }, opponents := [] }

/-! The claims. -/

/-- Claim C1: with an existing snapshot and a cooldown d strictly above
zero, if the elapsed time since the recorded fetch timestamp is strictly
below d, then fetchIfNeeded returns the existing snapshot with its
timestamp and payload unchanged, performs no network call, and leaves
the snapshot store untouched. -/
theorem fetchIfNeeded_cache_hit
    (net : Net) (st : Store) (now : Nat) (endpoint : String) (d : Nat)
    (ts : String) (last : Int) (payload : Json)
    (_hd : 0 < d)
    (hread : storeRead st (snapshotFileName endpoint) = some (envelopeJson ts payload))
    (hts : dateGetTime ts = some last)
    (helapsed : (now : Int) - last < (d : Int) * 60000) :
    fetchIfNeeded net st now endpoint d =
      { result := .ok (some { lastFetched := Json.str ts, data := payload }),
        store := st, calls := [] } := by
  simp only [fetchIfNeeded, hread, getField_envelope_lastFetched, getField_envelope_data,
    Option.getD_some, jsonDateGetTime, hts]
  rw [if_pos helapsed]

/-- Claim C1 witness: a snapshot fetched at time 0 and re-requested one
minute later under a ten minute cooldown is returned unchanged. -/
theorem fetchIfNeeded_cache_hit_witness :
    fetchIfNeeded (fun _ => NetResult.ok (Json.arr []))
        [(snapshotFileName upcomingEndpoint, envelopeJson "0" (Json.num 1))]
        60000 upcomingEndpoint 10 =
      { result := .ok (some { lastFetched := Json.str "0", data := Json.num 1 }),
        store := [(snapshotFileName upcomingEndpoint, envelopeJson "0" (Json.num 1))],
        calls := [] } :=
  fetchIfNeeded_cache_hit _ _ _ _ _ "0" 0 _ (by decide) rfl (by decide) (by decide)

/-- Claim C2 counterexample: with cooldown 0 and elapsed time 0 (the
snapshot was written at the same millisecond reading as the current
request) the refetch does happen, but the new snapshot timestamp equals
the previous one, so it is not strictly later. -/
theorem fetchIfNeeded_zero_elapsed_not_strictly_later :
    fetchIfNeeded (fun _ => NetResult.ok (Json.num 2))
        [(snapshotFileName upcomingEndpoint, envelopeJson "0" (Json.num 1))]
        0 upcomingEndpoint 0 =
      { result := .ok (some { lastFetched := Json.str "0", data := Json.num 2 }),
        store := [(snapshotFileName upcomingEndpoint, envelopeJson "0" (Json.num 2))],
        calls := [upcomingEndpoint] }
    ∧ isoTimestamp 0 = "0"
    ∧ dateGetTime "0" = some 0
    ∧ ¬ ((0 : Int) < (0 : Int)) :=
  ⟨rfl, rfl, by decide, by decide⟩

/-- Claim C2 amended: whenever the snapshot is absent, or present with
elapsed time at least the cooldown (cooldown 0 included), fetchIfNeeded
performs exactly one network call; on a successful response it
overwrites the snapshot with a fetch timestamp equal to the current
clock reading, which is never earlier than the previous snapshot
timestamp and strictly later exactly when the elapsed time is strictly
positive. -/
theorem fetchIfNeeded_stale_refetch
    (net : Net) (st : Store) (now : Nat) (endpoint : String) (d : Nat)
    (ts : String) (last : Int) (payload : Json)
    (h : storeRead st (snapshotFileName endpoint) = none ∨
         (storeRead st (snapshotFileName endpoint) = some (envelopeJson ts payload) ∧
          dateGetTime ts = some last ∧ (d : Int) * 60000 ≤ (now : Int) - last)) :
    (fetchIfNeeded net st now endpoint d).calls = [endpoint] ∧
    (∀ body, net endpoint = .ok body →
        fetchIfNeeded net st now endpoint d =
          { result := .ok (some { lastFetched := Json.str (isoTimestamp now), data := body }),
            store := saveSnapshot st now body (snapshotFileName endpoint),
            calls := [endpoint] }) ∧
    jsonDateGetTime (Json.str (isoTimestamp now)) = some (Int.ofNat now) ∧
    ((0 : Int) ≤ (now : Int) - last → last ≤ (now : Int)) ∧
    ((0 : Int) < (now : Int) - last → last < (now : Int)) := by
  have hred : fetchIfNeeded net st now endpoint d = fetchEsportsData net st now endpoint false := by
    rcases h with h | ⟨hread, hts, hge⟩
    · simp [fetchIfNeeded, h]
    · have hnotlt : ¬ ((now : Int) - last < (d : Int) * 60000) := not_lt.mpr hge
      simp only [fetchIfNeeded, hread, getField_envelope_lastFetched, getField_envelope_data,
        Option.getD_some, jsonDateGetTime, hts]
      rw [if_neg hnotlt]
  refine ⟨?_, ?_, jsonDateGetTime_isoTimestamp now, by omega, by omega⟩
  · rw [hred]
    cases hnet : net endpoint <;> simp [fetchEsportsData, hnet]
  · intro body hnet
    rw [hred]
    simp [fetchEsportsData, hnet]

/-- Claim C2 witness: a snapshot written at time 0 and requested at time
600000 ms (exactly the ten minute cooldown) triggers exactly one request
and is overwritten with the new snapshot. -/
theorem fetchIfNeeded_stale_refetch_witness :
    (fetchIfNeeded (fun _ => NetResult.ok (Json.num 2))
        [(snapshotFileName upcomingEndpoint, envelopeJson "0" (Json.num 1))]
        600000 upcomingEndpoint 10).calls = [upcomingEndpoint] ∧
    fetchIfNeeded (fun _ => NetResult.ok (Json.num 2))
        [(snapshotFileName upcomingEndpoint, envelopeJson "0" (Json.num 1))]
        600000 upcomingEndpoint 10 =
      { result := .ok (some { lastFetched := Json.str (isoTimestamp 600000), data := Json.num 2 }),
        store := saveSnapshot [(snapshotFileName upcomingEndpoint, envelopeJson "0" (Json.num 1))]
                   600000 (Json.num 2) (snapshotFileName upcomingEndpoint),
        calls := [upcomingEndpoint] } := by
  have h := fetchIfNeeded_stale_refetch (fun _ => NetResult.ok (Json.num 2))
      [(snapshotFileName upcomingEndpoint, envelopeJson "0" (Json.num 1))]
      600000 upcomingEndpoint 10 "0" 0 (Json.num 1)
      (Or.inr ⟨rfl, by decide, by decide⟩)
  exact ⟨h.1, h.2.1 (Json.num 2) rfl⟩

/-- Claim C3: when the request is actually attempted (useSnapshot is
false, or no snapshot file exists) and the response is not a 2xx
success, fetchEsportsData surfaces failure (returns null or lets the
thrown error propagate) and performs no write: the store, including any
pre-existing snapshot file, is unchanged. -/
theorem fetchEsportsData_failure_no_write
    (net : Net) (st : Store) (now : Nat) (endpoint : String) (useSnapshot : Bool)
    (hattempt : useSnapshot = false ∨ storeRead st (snapshotFileName endpoint) = none)
    (hfail : ∀ body, net endpoint ≠ NetResult.ok body) :
    ((fetchEsportsData net st now endpoint useSnapshot).result = .ok none ∨
      ∃ msg, (fetchEsportsData net st now endpoint useSnapshot).result = .error msg) ∧
    (fetchEsportsData net st now endpoint useSnapshot).store = st := by
  have hfe : fetchEsportsData net st now endpoint useSnapshot =
      (match net endpoint with
       | .ok body =>
           { result := .ok (some { lastFetched := .str (isoTimestamp now), data := body }),
             store := saveSnapshot st now body (snapshotFileName endpoint),
             calls := [endpoint] }
       | .httpError _ _ => { result := .ok none, store := st, calls := [endpoint] }
       | .transportError msg => { result := .error msg, store := st, calls := [endpoint] }) := by
    rcases hattempt with h | h
    · subst h; rfl
    · cases useSnapshot
      · rfl
      · simp [fetchEsportsData, h]
  cases hnet : net endpoint with
  | ok body => exact absurd hnet (hfail body)
  | httpError s t => rw [hfe, hnet]; exact ⟨Or.inl rfl, rfl⟩
  | transportError msg => rw [hfe, hnet]; exact ⟨Or.inr ⟨msg, rfl⟩, rfl⟩

/-- Claim C3 witness: a 500 response leaves the pre-existing snapshot
file untouched and yields the null failure indicator. -/
theorem fetchEsportsData_failure_no_write_witness :
    ((fetchEsportsData (fun _ => NetResult.httpError 500 "Internal Server Error")
        [(snapshotFileName upcomingEndpoint, envelopeJson "0" (Json.num 1))]
        0 upcomingEndpoint false).result = .ok none ∨
      ∃ msg, (fetchEsportsData (fun _ => NetResult.httpError 500 "Internal Server Error")
        [(snapshotFileName upcomingEndpoint, envelopeJson "0" (Json.num 1))]
        0 upcomingEndpoint false).result = .error msg) ∧
    (fetchEsportsData (fun _ => NetResult.httpError 500 "Internal Server Error")
        [(snapshotFileName upcomingEndpoint, envelopeJson "0" (Json.num 1))]
        0 upcomingEndpoint false).store
      = [(snapshotFileName upcomingEndpoint, envelopeJson "0" (Json.num 1))] :=
  fetchEsportsData_failure_no_write _ _ _ _ _ (Or.inl rfl) (fun _ h => nomatch h)

/-- Claim C4: saveSnapshot stores at the deterministically derived file
path an object with exactly the two top level fields lastFetched (the
timestamp rendered at write time) and data (the payload exactly as
received), and touches no other file. -/
theorem saveSnapshot_writes_two_field_envelope
    (st : Store) (now : Nat) (payload : Json) (resourceKey : String) :
    storeRead (saveSnapshot st now payload (snapshotFileName resourceKey))
        (snapshotFileName resourceKey)
      = some (Json.obj [("lastFetched", Json.str (isoTimestamp now)), ("data", payload)]) ∧
    (∀ file, file ≠ snapshotFileName resourceKey →
        storeRead (saveSnapshot st now payload (snapshotFileName resourceKey)) file
          = storeRead st file) := by
  constructor
  · simpa [saveSnapshot, snapshotJson, envelopeJson] using
      storeRead_storeWrite_self st (snapshotFileName resourceKey) (snapshotJson now payload)
  · intro file hf
    exact storeRead_storeWrite_ne st _ file _ hf

/-- Claim C4 witness: at time 5 the payload 7 is stored under the
upcoming matches resource key inside the two field envelope, and an
unrelated file is untouched. -/
theorem saveSnapshot_writes_two_field_envelope_witness :
    storeRead (saveSnapshot [] 5 (Json.num 7) (snapshotFileName upcomingEndpoint))
        (snapshotFileName upcomingEndpoint)
      = some (Json.obj [("lastFetched", Json.str (isoTimestamp 5)), ("data", Json.num 7)]) ∧
    storeRead (saveSnapshot [] 5 (Json.num 7) (snapshotFileName upcomingEndpoint)) "other.json"
      = storeRead ([] : Store) "other.json" :=
  ⟨(saveSnapshot_writes_two_field_envelope [] 5 (Json.num 7) upcomingEndpoint).1,
   (saveSnapshot_writes_two_field_envelope [] 5 (Json.num 7) upcomingEndpoint).2
     "other.json" (by decide)⟩

/-- Claim C5 counterexample: the data acquisition at the start of a main
menu cycle reuses a snapshot that is one hundred minutes old (far beyond
the ten minute cooldown the program uses elsewhere) without any network
call and without writing: the session does not go through the freshness
policy. -/
theorem mainMenu_stale_snapshot_reused :
    mainMenuAcquire (fun _ => NetResult.ok (Json.num 2))
        [(snapshotFileName upcomingEndpoint, envelopeJson "0" (Json.num 1))] 6000000 =
      { result := .ok (some { lastFetched := Json.str "0", data := Json.num 1 }),
        store := [(snapshotFileName upcomingEndpoint, envelopeJson "0" (Json.num 1))],
        calls := [] }
    ∧ dateGetTime "0" = some 0
    ∧ (10 : Int) * 60000 ≤ (6000000 : Int) - 0 :=
  ⟨rfl, by decide, by decide⟩

/-- Claim C5 amended: the main menu acquisition calls fetchEsportsData
with useSnapshot true, so any existing snapshot is returned as is, with
no network call and no write, no matter how stale; only when no snapshot
exists does it fetch and write one.  The freshness policy fetchIfNeeded
runs only in the separate Fetch New Data menu action, with its cooldown
of ten minutes. -/
theorem mainMenuAcquire_snapshot_behavior
    (net : Net) (st : Store) (now : Nat) (ts : String) (payload : Json) :
    (storeRead st (snapshotFileName upcomingEndpoint) = some (envelopeJson ts payload) →
      mainMenuAcquire net st now =
        { result := .ok (some { lastFetched := Json.str ts, data := payload }),
          store := st, calls := [] }) ∧
    (storeRead st (snapshotFileName upcomingEndpoint) = none →
      ∀ body, net upcomingEndpoint = .ok body →
        mainMenuAcquire net st now =
          { result := .ok (some { lastFetched := Json.str (isoTimestamp now), data := body }),
            store := saveSnapshot st now body (snapshotFileName upcomingEndpoint),
            calls := [upcomingEndpoint] }) ∧
    fetchNewDataAction net st now = fetchIfNeeded net st now upcomingEndpoint 10 := by
  refine ⟨?_, ?_, rfl⟩
  · intro h
    simp [mainMenuAcquire, fetchEsportsData, h, getField_envelope_lastFetched,
      getField_envelope_data]
  · intro h body hnet
    simp [mainMenuAcquire, fetchEsportsData, h, hnet]

/-- Claim C5 amended witness: with an existing snapshot (timestamp 42)
the acquisition at time 7 returns it unchanged with no call. -/
theorem mainMenuAcquire_snapshot_behavior_witness :
    mainMenuAcquire (fun _ => NetResult.ok (Json.num 2))
        [(snapshotFileName upcomingEndpoint, envelopeJson "42" (Json.num 1))] 7 =
      { result := .ok (some { lastFetched := Json.str "42", data := Json.num 1 }),
        store := [(snapshotFileName upcomingEndpoint, envelopeJson "42" (Json.num 1))],
        calls := [] } :=
  (mainMenuAcquire_snapshot_behavior _ _ 7 "42" (Json.num 1)).1 rfl

/-- Claim C6: filterByGame keeps exactly the matches whose game name
equals the query ignoring case (exact equality, not substring),
preserving the original relative order, and on the three sample matches
with games Counter-Strike, Valorant and counter-strike the query
Counter-Strike returns the first and third in order. -/
theorem filterByGame_case_insensitive_exact :
    (∀ (ms : List Match) (g : String),
        filterByGame ms g = ms.filter (fun m => decide (specGameExactMatch m g)) ∧
        List.Sublist (filterByGame ms g) ms) ∧
    filterByGame [csMatch, valorantMatch, csLowerMatch] "Counter-Strike"
      = [csMatch, csLowerMatch] := by
  refine ⟨fun ms g => ⟨?_, List.filter_sublist ms⟩, by rfl⟩
  unfold filterByGame specGameExactMatch
  apply List.filter_congr
  intro m _
  by_cases h : jsToLower m.videogame.name = jsToLower g <;> simp [h]

/-- Claim C7: each of the four filters is pure in the embedding (a
function of its input returning a new list) and its result is a
subsequence of the input: a stable filter preserving relative order. -/
theorem filter_pipeline_stable_sublists (ms : List Match) (g l q : String) :
    List.Sublist (filterByGame ms g) ms ∧
    List.Sublist (filterByLeague ms l) ms ∧
    List.Sublist (filterLiveMatches ms) ms ∧
    List.Sublist (searchMatches ms q) ms :=
  ⟨List.filter_sublist ms, List.filter_sublist ms, List.filter_sublist ms,
   List.filter_sublist ms⟩

/-- Claim C8: writing a snapshot and reading it back for the same
resource key yields the payload exactly as written and a timestamp whose
time value is no earlier than the clock reading at the start of the
write. -/
theorem snapshot_write_read_roundtrip
    (st : Store) (now : Nat) (payload : Json) (resourceKey : String) :
    ∃ j, storeRead (saveSnapshot st now payload (snapshotFileName resourceKey))
            (snapshotFileName resourceKey) = some j ∧
      getField j "data" = some payload ∧
      ∃ ts : String, getField j "lastFetched" = some (Json.str ts) ∧
        ∃ t : Int, dateGetTime ts = some t ∧ (now : Int) ≤ t := by
  refine ⟨snapshotJson now payload, ?_, ?_, isoTimestamp now, ?_, Int.ofNat now, ?_, ?_⟩
  · exact storeRead_storeWrite_self st _ _
  · exact getField_envelope_data _ _
  · exact getField_envelope_lastFetched _ _
  · exact dateGetTime_isoTimestamp now
  · simp

/-- Claim C9 counterexample: a transport failure is not recovered by
returning the null failure indicator: fetchEsportsData propagates the
thrown error, and it escapes the main menu acquisition uncaught, so the
session does not keep running on cached data. -/
theorem transport_error_not_recovered :
    (fetchEsportsData (fun _ => NetResult.transportError "connection reset")
        [] 0 upcomingEndpoint false).result = .error "connection reset" ∧
    (mainMenuAcquire (fun _ => NetResult.transportError "connection reset")
        [] 0).result ≠ .ok none :=
  ⟨rfl, fun h => nomatch h⟩

/-- Claim C9 amended: a non-2xx response is recovered locally: the fetch
returns the null failure indicator and leaves the store (the cached
data) untouched; a transport failure is not caught anywhere: the thrown
error propagates out of the fetch and out of the main menu acquisition,
terminating the session. -/
theorem fetch_error_recovery_split
    (net : Net) (st : Store) (now : Nat) (endpoint : String) :
    (∀ s t, net endpoint = .httpError s t →
        fetchEsportsData net st now endpoint false =
          { result := .ok none, store := st, calls := [endpoint] }) ∧
    (∀ msg, net endpoint = .transportError msg →
        fetchEsportsData net st now endpoint false =
          { result := .error msg, store := st, calls := [endpoint] }) ∧
    (∀ msg, net upcomingEndpoint = .transportError msg →
        storeRead st (snapshotFileName upcomingEndpoint) = none →
        (mainMenuAcquire net st now).result = .error msg) := by
  refine ⟨?_, ?_, ?_⟩
  · intro s t hnet
    simp [fetchEsportsData, hnet]
  · intro msg hnet
    simp [fetchEsportsData, hnet]
  · intro msg hnet hread
    simp [mainMenuAcquire, fetchEsportsData, hnet, hread]

/-- Claim C9 amended witness: a 404 yields the null indicator with the
store untouched; a dns failure propagates as a thrown error. -/
theorem fetch_error_recovery_split_witness :
    fetchEsportsData (fun _ => NetResult.httpError 404 "Not Found") [] 0 upcomingEndpoint false =
      { result := .ok none, store := [], calls := [upcomingEndpoint] } ∧
    fetchEsportsData (fun _ => NetResult.transportError "dns failure") [] 0 upcomingEndpoint false =
      { result := .error "dns failure", store := [], calls := [upcomingEndpoint] } :=
  ⟨(fetch_error_recovery_split (fun _ => NetResult.httpError 404 "Not Found")
      [] 0 upcomingEndpoint).1 404 "Not Found" rfl,
   (fetch_error_recovery_split (fun _ => NetResult.transportError "dns failure")
      [] 0 upcomingEndpoint).2.1 "dns failure" rfl⟩

/-- Claim C10: the empty string is a substring of every name, so the
free text filters searchMatches and filterByLeague return the whole
input unchanged on an empty query. -/
theorem empty_query_returns_all (ms : List Match) :
    searchMatches ms "" = ms ∧ filterByLeague ms "" = ms := by
  have hcontain : ∀ l : List Char, charsContain [] l = true := by
    intro l
    cases l with
    | nil => rfl
    | cons c rest => simp [charsContain, charsHavePrefix]
  have hinc : ∀ s : String, jsIncludes s "" = true := by
    intro s
    simpa [jsIncludes] using hcontain s.data
  constructor <;>
    · apply List.filter_eq_self.mpr
      intro m _
      simp only [show jsToLower "" = "" from rfl]
      exact hinc _

end EsportsCli
